import Mathlib

/-
Verification of the saga execution engine in saga.go.

The engine is embedded shallowly: the `Saga` struct becomes a Lean structure,
each method becomes a state-passing function, and a Go panic (raised by
`checkErr`, by `compensateStep` on a compensation error, or by `getFuncValue`
on an invalid registration) becomes the `Except.error` branch of `PanicOr`,
carrying the state at the moment of the panic so the observable history
(emitted log events, performed action invocations) of a panicking run remains
visible.  Reflection-level values (`reflect.Value`) are embedded as `GoVal`,
callables as `GoFunc`, and `interface\x7b\x7d`-typed registered objects as `GoObj`.
The model instruments the state with the list of appended log events and the
list of action invocations (`CallRecord`), which is exactly the information
the engine's observable behavior consists of.
-/

namespace saga

/-- A reflection-level Go value as it appears in action parameter and result
lists: the saga's context value, a non-error data value, or an error-typed
value (`none` = the nil error). -/
inductive GoVal where
  | ctxVal : GoVal
  | dataVal (n : Nat) : GoVal
  | errVal (e : Option String) : GoVal
deriving DecidableEq, Repr

/-- Whether an invocation was of a forward action or of a compensating
action. -/
inductive CallKind where
  | forward : CallKind
  | compensate : CallKind
deriving DecidableEq, Repr

/-- Instrumentation: one record per action invocation performed by the
engine (one per `reflect.Value.Call` in saga.go), with the step index it was
performed for, the parameter list passed, and the result list returned. -/
structure CallRecord where
  kind : CallKind
  stepIndex : Nat
  params : List GoVal
  rets : List GoVal
deriving DecidableEq, Repr

/-- Modelled from the spec: the log event kinds of saga.go's LogType
constants (`LogTypeStartSaga` etc.), which are declared outside src/saga.go. -/
inductive LogType where
  | StartSaga : LogType
  | SagaStepExec : LogType
  | SagaStepCompensate : LogType
  | SagaAbort : LogType
  | SagaComplete : LogType
deriving DecidableEq, Repr

/-- Modelled from the spec: the Log event record of saga.go (declared outside
src/saga.go); fields follow the literals built in saga.go (`ExecutionID`,
`Name`, `Type`, `StepNumber`, `StepName`).  The wall-clock `Time` field is
omitted: no claim mentions timestamps. -/
structure Log where
  ExecutionID : String
  Name : String
  logType : LogType
  StepNumber : Option Nat
  StepName : Option String
deriving DecidableEq, Repr

/-- Modelled from the spec: the Store collaborator's `AppendLog` behavior,
as the error (if any) it returns for an appended event.  The successfully
appended events themselves are accumulated in the saga state's `logs`
instrumentation field. -/
abbrev Store := Log → Option String

/-- A Go callable as registered with a step: its parameter count, whether its
first parameter has type context.Context, and its behavior as a function from
the parameter list to the result list. -/
structure GoFunc where
  numIn : Nat
  firstIsCtx : Bool
  call : List GoVal → List GoVal

/-- A dynamically typed registered object (Go `interface\x7b\x7d`): either a
callable or a non-callable value described by its dynamic type name. -/
inductive GoObj where
  | fn (f : GoFunc) : GoObj
  | nonFunc (typeName : String) : GoObj

/-- The empty StepOptions struct of saga.go. -/
structure StepOptions where

/-- The Step struct of saga.go. -/
structure Step where
  Name : String
  Func : GoObj
  CompensateFunc : GoObj
  Options : Option StepOptions := none

/-- The Result struct of saga.go: only the execution error. -/
structure Result where
  Err : Option String
deriving DecidableEq, Repr

/-- The Saga struct of saga.go, with two instrumentation fields: `logs`, the
events successfully appended to the log store, and `calls`, the action
invocations performed. -/
structure Saga where
  ExecutionID : String
  Name : String
  returnedValuesFromFunc : List (List GoVal)
  toCompensate : List GoFunc
  aborted : Bool
  err : Option String
  steps : List Step
  logs : List Log
  calls : List CallRecord

/-- A Go panic, carrying the panic message and the saga state at the moment
of the panic. -/
abbrev PanicOr (α : Type) := Except (String × Saga) α

/-- checkErr of saga.go: panics (models as the error branch) when the given
error is non-nil. -/
def checkErr (err : Option String) : Except String Unit :=
  match err with
  | some e => Except.error e
  | none => Except.ok ()

/-- isReturnError of saga.go: a non-nil error in the last position of a
result list is the call's error; an empty result list yields nil. -/
def isReturnError (result : List GoVal) : Option String :=
  match result.getLast? with
  | none => none
  | some (GoVal.errVal e) => e
  | some _ => none

/-- addParams of saga.go: when the returned list has more than one element,
append all but its last element (expected to be the error) to `values`. -/
def addParams (values : List GoVal) (returned : List GoVal) : List GoVal :=
  if returned.length > 1 then values ++ returned.take (returned.length - 1)
  else values

/-- getFuncValue of saga.go: panics (error branch) unless the object is a
callable whose first parameter is a context.Context. -/
def getFuncValue (obj : GoObj) : Except String GoFunc :=
  match obj with
  | GoObj.nonFunc _ => Except.error "registered object must be a func"
  | GoObj.fn f =>
    if f.numIn < 1 ∨ f.firstIsCtx = false then
      Except.error "first argument must use context.ctx"
    else Except.ok f

/-- NewSaga of saga.go.  The context and log store are passed to the
operations that use them; `RandString()` is modelled by taking the generated
execution identifier as a parameter. -/
def NewSaga (name executionID : String) : Saga :=
  { ExecutionID := executionID
    Name := name
    returnedValuesFromFunc := []
    toCompensate := []
    aborted := false
    err := none
    steps := []
    logs := []
    calls := [] }

/-- AddStep of saga.go: unconditionally appends the step (the source carries
a FIXME noting the absent validation) and returns nothing. -/
def AddStep (saga : Saga) (step : Step) : Saga :=
  { saga with steps := saga.steps ++ [step] }

/-- Builds the log event literals of saga.go from the saga's identity. -/
def mkLog (s : Saga) (t : LogType) (stepNumber : Option Nat)
    (stepName : Option String) : Log :=
  { ExecutionID := s.ExecutionID
    Name := s.Name
    logType := t
    StepNumber := stepNumber
    StepName := stepName }

/-- The `checkErr(saga.logStore.AppendLog(...))` pattern of saga.go: a store
error panics; on success the event is recorded. -/
def appendLog (store : Store) (s : Saga) (l : Log) : PanicOr Saga :=
  match checkErr (store l) with
  | Except.error e => Except.error (e, s)
  | Except.ok _ => Except.ok { s with logs := s.logs ++ [l] }

/-- compensateStep of saga.go: log the StepCompensate event, build the
parameter list from the context plus the step's recorded forward results
(via addParams), call the bound compensating action, and panic if it
returned a non-nil error. -/
def compensateStep (store : Store) (s : Saga) (i : Nat) : PanicOr Saga :=
  match s.steps[i]? with
  | none => Except.error ("index out of range", s)
  | some st =>
    match appendLog store s (mkLog s LogType.SagaStepCompensate (some i) (some st.Name)) with
    | Except.error p => Except.error p
    | Except.ok s1 =>
      match s1.returnedValuesFromFunc[i]? with
      | none => Except.error ("index out of range", s1)
      | some rv =>
        match s1.toCompensate[i]? with
        | none => Except.error ("index out of range", s1)
        | some cf =>
          let params := addParams [GoVal.ctxVal] rv
          let res := cf.call params
          let s2 := { s1 with
            calls := s1.calls ++ [⟨CallKind.compensate, i, params, res⟩] }
          match isReturnError res with
          | some e => Except.error (e, s2)
          | none => Except.ok s2

/-- The `for i := stepsToCompensate - 1; i >= 0; i--` loop of abort in
saga.go: `compensateLoop store s k` compensates indices k-1 down to 0. -/
def compensateLoop (store : Store) : Saga → Nat → PanicOr Saga
  | s, 0 => Except.ok s
  | s, n + 1 =>
    match compensateStep store s n with
    | Except.error p => Except.error p
    | Except.ok s1 => compensateLoop store s1 n

/-- abort of saga.go: log the SagaAbort event carrying the number of steps
to compensate, set the aborted flag, and compensate in reverse order. -/
def abort (store : Store) (s : Saga) : PanicOr Saga :=
  let stepsToCompensate := s.toCompensate.length
  match appendLog store s (mkLog s LogType.SagaAbort (some stepsToCompensate) none) with
  | Except.error p => Except.error p
  | Except.ok s1 => compensateLoop store { s1 with aborted := true } stepsToCompensate

/-- execStep of saga.go: a no-op when aborted; otherwise log the StepExec
event, call the forward action with only the context, record the bound
compensating action and the forward results, and on a non-nil trailing
error set the saga error and abort. -/
def execStep (store : Store) (s : Saga) (i : Nat) : PanicOr Saga :=
  if s.aborted then Except.ok s
  else
    match s.steps[i]? with
    | none => Except.error ("index out of range", s)
    | some st =>
      match appendLog store s (mkLog s LogType.SagaStepExec (some i) (some st.Name)) with
      | Except.error p => Except.error p
      | Except.ok s1 =>
        match getFuncValue st.Func with
        | Except.error e => Except.error (e, s1)
        | Except.ok fv =>
          let resp := fv.call [GoVal.ctxVal]
          let s2 := { s1 with
            calls := s1.calls ++ [⟨CallKind.forward, i, [GoVal.ctxVal], resp⟩] }
          match getFuncValue st.CompensateFunc with
          | Except.error e => Except.error (e, s2)
          | Except.ok cv =>
            let s3 := { s2 with
              toCompensate := s2.toCompensate ++ [cv]
              returnedValuesFromFunc := s2.returnedValuesFromFunc ++ [resp] }
            match isReturnError resp with
            | some e => abort store { s3 with err := some e }
            | none => Except.ok s3

/-- The `for i := 0; i < len(saga.steps); i++` loop of Play in saga.go:
`execLoop store s i k` runs execStep on indices i, i+1, ... for k
iterations (Play passes k = number of registered steps, which no engine
operation changes). -/
def execLoop (store : Store) : Saga → Nat → Nat → PanicOr Saga
  | s, _, 0 => Except.ok s
  | s, i, k + 1 =>
    match execStep store s i with
    | Except.error p => Except.error p
    | Except.ok s1 => execLoop store s1 (i + 1) k

/-- Play of saga.go: log StartSaga, run every step index in order, log
SagaComplete, and return the Result carrying the saga error. -/
def Play (store : Store) (saga : Saga) : PanicOr (Saga × Result) :=
  match appendLog store saga (mkLog saga LogType.StartSaga none none) with
  | Except.error p => Except.error p
  | Except.ok s1 =>
    match execLoop store s1 0 s1.steps.length with
    | Except.error p => Except.error p
    | Except.ok s2 =>
      match appendLog store s2 (mkLog s2 LogType.SagaComplete none none) with
      | Except.error p => Except.error p
      | Except.ok s3 => Except.ok (s3, { Err := s3.err })

/-- The final saga state of a run: the returned state of a completed run, or
the state at the moment of the panic for a panicking run. -/
def playFinalState : PanicOr (Saga × Result) → Saga
  | Except.ok (s, _) => s
  | Except.error (_, s) => s

/-- The panic message of a run, `none` when the run returned normally. -/
def runPanicMsg : PanicOr (Saga × Result) → Option String
  | Except.ok _ => none
  | Except.error (e, _) => some e

/-- The kinds of the log events emitted during a run, in emission order. -/
def runLogTypes (r : PanicOr (Saga × Result)) : List LogType :=
  (playFinalState r).logs.map Log.logType

/-- The action invocations performed during a run, in invocation order. -/
def runCalls (r : PanicOr (Saga × Result)) : List CallRecord :=
  (playFinalState r).calls

/-- A step description: name, forward callable, compensating callable. -/
abbrev StepSpec := String × GoFunc × GoFunc

/-- The Step built from a step description. -/
def mkStep (t : StepSpec) : Step :=
  { Name := t.1, Func := GoObj.fn t.2.1, CompensateFunc := GoObj.fn t.2.2 }

/-- The step list built from a list of step descriptions. -/
def mkSteps (L : List StepSpec) : List Step :=
  L.map mkStep

/-- A saga constructed by NewSaga followed by one AddStep per description. -/
def mkSaga (name executionID : String) (L : List StepSpec) : Saga :=
  L.foldl (fun sg t => AddStep sg (mkStep t)) (NewSaga name executionID)

/-- The registration contract getFuncValue checks: at least one parameter,
the first of type context.Context. -/
def ValidFn (f : GoFunc) : Prop :=
  1 ≤ f.numIn ∧ f.firstIsCtx = true

/-- The result list a step's forward action produces when called with the
context alone, as the engine calls it. -/
def fwdRets (t : StepSpec) : List GoVal :=
  t.2.1.call [GoVal.ctxVal]

/-- The parameter list the engine passes to a step's compensating action. -/
def compParams (t : StepSpec) : List GoVal :=
  addParams [GoVal.ctxVal] (fwdRets t)

/-- The result list a step's compensating action produces when the engine
calls it. -/
def compRets (t : StepSpec) : List GoVal :=
  t.2.2.call (compParams t)

/-- Maps a list with the index of each element, starting at `i`. -/
def idxMap {α β : Type} (f : Nat → α → β) : Nat → List α → List β
  | _, [] => []
  | i, a :: l => f i a :: idxMap f (i + 1) l

/-- The StepExec log event for step `i`. -/
def execLogFor (eid nm : String) (i : Nat) (t : StepSpec) : Log :=
  ⟨eid, nm, LogType.SagaStepExec, some i, some t.1⟩

/-- The forward invocation record for step `i`. -/
def fwdCallFor (i : Nat) (t : StepSpec) : CallRecord :=
  ⟨CallKind.forward, i, [GoVal.ctxVal], fwdRets t⟩

/-- The StepCompensate log event for step `i`. -/
def compLogFor (eid nm : String) (i : Nat) (t : StepSpec) : Log :=
  ⟨eid, nm, LogType.SagaStepCompensate, some i, some t.1⟩

/-- The compensating invocation record for step `i`. -/
def compCallFor (i : Nat) (t : StepSpec) : CallRecord :=
  ⟨CallKind.compensate, i, compParams t, compRets t⟩

/-- A log store whose appends always succeed (the in-memory store). -/
def okStore : Store := fun _ => none

/-- A log store whose appends always fail. -/
def downStore : Store := fun _ => some "log store unavailable"

/-- A well-formed action that succeeds, returning only a nil error. -/
def okFn : GoFunc := ⟨1, true, fun _ => [GoVal.errVal none]⟩

/-- A well-formed action that succeeds, returning a data value and a nil
error. -/
def outFn (n : Nat) : GoFunc := ⟨1, true, fun _ => [GoVal.dataVal n, GoVal.errVal none]⟩

/-- A well-formed action that fails with the given error message. -/
def failFn (msg : String) : GoFunc := ⟨1, true, fun _ => [GoVal.errVal (some msg)]⟩

/-- okFn satisfies the registration contract. -/
theorem validFn_okFn : ValidFn okFn := ⟨Nat.le_refl 1, rfl⟩

/-- outFn satisfies the registration contract. -/
theorem validFn_outFn (n : Nat) : ValidFn (outFn n) := ⟨Nat.le_refl 1, rfl⟩

/-- failFn satisfies the registration contract. -/
theorem validFn_failFn (msg : String) : ValidFn (failFn msg) := ⟨Nat.le_refl 1, rfl⟩

theorem foldl_AddStep (L : List StepSpec) :
    ∀ s : Saga, L.foldl (fun sg t => AddStep sg (mkStep t)) s =
      { s with steps := s.steps ++ mkSteps L } := by
  induction L with
  | nil => intro s; simp [mkSteps]
  | cons t L ih =>
    intro s
    rw [List.foldl_cons, ih]
    simp [AddStep, mkSteps]

theorem mkSaga_eq (nm eid : String) (L : List StepSpec) :
    mkSaga nm eid L = { NewSaga nm eid with steps := mkSteps L } := by
  simpa [mkSaga, NewSaga] using foldl_AddStep L (NewSaga nm eid)

theorem getElem?_append_len {α : Type} (l₁ : List α) (a : α) (l₂ : List α) :
    (l₁ ++ a :: l₂)[l₁.length]? = some a := by
  induction l₁ with
  | nil => simp
  | cons b l ih => simpa using ih

theorem getElem?_append_at {α : Type} (l₁ : List α) (a : α) (l₂ : List α) (n : Nat)
    (h : n = l₁.length) : (l₁ ++ a :: l₂)[n]? = some a := by
  subst h; exact getElem?_append_len l₁ a l₂

theorem idxMap_append {α β : Type} (f : Nat → α → β) :
    ∀ (l₁ l₂ : List α) (i : Nat),
      idxMap f i (l₁ ++ l₂) = idxMap f i l₁ ++ idxMap f (i + l₁.length) l₂ := by
  intro l₁
  induction l₁ with
  | nil => intro l₂ i; simp [idxMap]
  | cons a l ih =>
    intro l₂ i
    simp only [List.cons_append, idxMap, List.append_eq]
    rw [ih]
    have h : i + (a :: l).length = i + 1 + l.length := by
      simp only [List.length_cons]; omega
    rw [h]

theorem idxMap_getElem? {α β : Type} (f : Nat → α → β) :
    ∀ (l : List α) (i j : Nat) (a : α),
      l[j]? = some a → (idxMap f i l)[j]? = some (f (i + j) a) := by
  intro l
  induction l with
  | nil => intro i j a h; simp at h
  | cons b l ih =>
    intro i j a h
    cases j with
    | zero => simp at h; simp [idxMap, h]
    | succ j =>
      simp only [List.getElem?_cons_succ] at h
      have := ih (i + 1) j a h
      have harith : i + 1 + j = i + (j + 1) := by omega
      rw [harith] at this
      simpa [idxMap] using this

theorem addParams_dropLast (vs r : List GoVal) :
    addParams vs r = vs ++ r.dropLast := by
  unfold addParams
  by_cases h : r.length > 1
  · simp [h, List.dropLast_eq_take]
  · have : r.dropLast = [] := by
      match r, h with
      | [], _ => rfl
      | [a], _ => rfl
      | a :: b :: r, h => simp at h
    simp [h, this]

theorem execStep_aborted (store : Store) (s : Saga) (i : Nat)
    (h : s.aborted = true) : execStep store s i = Except.ok s := by
  simp [execStep, h]

theorem execLoop_aborted (store : Store) :
    ∀ (k : Nat) (s : Saga) (i : Nat), s.aborted = true →
      execLoop store s i k = Except.ok s := by
  intro k
  induction k with
  | zero => intro s i _; rfl
  | succ k ih =>
    intro s i h
    simp [execLoop, execStep_aborted store s i h, ih s (i + 1) h]

theorem execStep_success (store : Store) (s : Saga) (i : Nat) (t : StepSpec)
    (hstore : ∀ l, store l = none)
    (hab : s.aborted = false)
    (hget : s.steps[i]? = some (mkStep t))
    (hf : ValidFn t.2.1) (hc : ValidFn t.2.2)
    (hok : isReturnError (fwdRets t) = none) :
    execStep store s i = Except.ok { s with
      logs := s.logs ++ [execLogFor s.ExecutionID s.Name i t]
      calls := s.calls ++ [fwdCallFor i t]
      toCompensate := s.toCompensate ++ [t.2.2]
      returnedValuesFromFunc := s.returnedValuesFromFunc ++ [fwdRets t] } := by
  obtain ⟨hn, hctx⟩ := hf
  obtain ⟨hn2, hctx2⟩ := hc
  have hne : ¬ (t.2.1.numIn = 0) := by omega
  have hne2 : ¬ (t.2.2.numIn = 0) := by omega
  have hok' : isReturnError (t.2.1.call [GoVal.ctxVal]) = none := hok
  simp [execStep, hab, hget, appendLog, checkErr, hstore, getFuncValue, mkStep,
        hne, hctx, hne2, hctx2, hok', mkLog, execLogFor, fwdCallFor, fwdRets]

theorem execStep_fail (store : Store) (s : Saga) (i : Nat) (t : StepSpec)
    (e : String)
    (hstore : ∀ l, store l = none)
    (hab : s.aborted = false)
    (hget : s.steps[i]? = some (mkStep t))
    (hf : ValidFn t.2.1) (hc : ValidFn t.2.2)
    (hfail : isReturnError (fwdRets t) = some e) :
    execStep store s i = abort store { s with
      logs := s.logs ++ [execLogFor s.ExecutionID s.Name i t]
      calls := s.calls ++ [fwdCallFor i t]
      toCompensate := s.toCompensate ++ [t.2.2]
      returnedValuesFromFunc := s.returnedValuesFromFunc ++ [fwdRets t]
      err := some e } := by
  obtain ⟨hn, hctx⟩ := hf
  obtain ⟨hn2, hctx2⟩ := hc
  have hne : ¬ (t.2.1.numIn = 0) := by omega
  have hne2 : ¬ (t.2.2.numIn = 0) := by omega
  have hfail' : isReturnError (t.2.1.call [GoVal.ctxVal]) = some e := hfail
  simp [execStep, hab, hget, appendLog, checkErr, hstore, getFuncValue, mkStep,
        hne, hctx, hne2, hctx2, hfail', mkLog, execLogFor, fwdCallFor, fwdRets]

theorem compensateStep_ok (store : Store) (s : Saga) (i : Nat) (t : StepSpec)
    (hstore : ∀ l, store l = none)
    (hget : s.steps[i]? = some (mkStep t))
    (hrv : s.returnedValuesFromFunc[i]? = some (fwdRets t))
    (htc : s.toCompensate[i]? = some t.2.2)
    (hcok : isReturnError (compRets t) = none) :
    compensateStep store s i = Except.ok { s with
      logs := s.logs ++ [compLogFor s.ExecutionID s.Name i t]
      calls := s.calls ++ [compCallFor i t] } := by
  have hcok' :
      isReturnError (t.2.2.call (addParams [GoVal.ctxVal] (t.2.1.call [GoVal.ctxVal]))) = none := hcok
  simp [compensateStep, hget, appendLog, checkErr, hstore, hrv, htc, mkLog,
        compLogFor, compCallFor, compParams, compRets, mkStep, hcok', fwdRets]

theorem compensateLoop_ok (store : Store) (hstore : ∀ l, store l = none)
    (S : List StepSpec) :
    ∀ (s : Saga) (rest : List Step) (tcExt : List GoFunc)
      (rvExt : List (List GoVal)),
    s.steps = mkSteps S ++ rest →
    s.toCompensate = S.map (fun t => t.2.2) ++ tcExt →
    s.returnedValuesFromFunc = S.map fwdRets ++ rvExt →
    (∀ t ∈ S, isReturnError (compRets t) = none) →
    compensateLoop store s S.length =
      Except.ok { s with
        logs := s.logs ++ (idxMap (compLogFor s.ExecutionID s.Name) 0 S).reverse
        calls := s.calls ++ (idxMap compCallFor 0 S).reverse } := by
  induction S using List.reverseRecOn with
  | nil =>
    intro s rest tcExt rvExt hsteps htc hrv hcomp
    simp [compensateLoop, idxMap]
  | append_singleton S' t ih =>
    intro s rest tcExt rvExt hsteps htc hrv hcomp
    have hget : s.steps[S'.length]? = some (mkStep t) := by
      rw [hsteps]
      have h1 : mkSteps (S' ++ [t]) ++ rest = mkSteps S' ++ (mkStep t :: rest) := by
        simp [mkSteps]
      rw [h1]
      exact getElem?_append_at _ _ _ _ (by simp [mkSteps])
    have hrv' : s.returnedValuesFromFunc[S'.length]? = some (fwdRets t) := by
      rw [hrv]
      have h1 : (S' ++ [t]).map fwdRets ++ rvExt
          = S'.map fwdRets ++ (fwdRets t :: rvExt) := by simp
      rw [h1]
      exact getElem?_append_at _ _ _ _ (by simp)
    have htc' : s.toCompensate[S'.length]? = some t.2.2 := by
      rw [htc]
      have h1 : (S' ++ [t]).map (fun t => t.2.2) ++ tcExt
          = S'.map (fun t => t.2.2) ++ (t.2.2 :: tcExt) := by simp
      rw [h1]
      exact getElem?_append_at _ _ _ _ (by simp)
    have hc : isReturnError (compRets t) = none := hcomp t (by simp)
    have hlen : (S' ++ [t]).length = S'.length + 1 := by simp
    rw [hlen]
    simp only [compensateLoop]
    simp only [compensateStep_ok store s S'.length t hstore hget hrv' htc' hc]
    rw [ih _ (mkStep t :: rest) (t.2.2 :: tcExt) (fwdRets t :: rvExt)
          (by simp [hsteps, mkSteps])
          (by simp [htc])
          (by simp [hrv])
          (fun u hu => hcomp u (by simp [hu]))]
    simp [idxMap_append, idxMap, List.append_assoc]

theorem abort_ok (store : Store) (hstore : ∀ l, store l = none)
    (S : List StepSpec) (s : Saga) (rest : List Step)
    (hsteps : s.steps = mkSteps S ++ rest)
    (htc : s.toCompensate = S.map (fun t => t.2.2))
    (hrv : s.returnedValuesFromFunc = S.map fwdRets)
    (hcomp : ∀ t ∈ S, isReturnError (compRets t) = none) :
    abort store s = Except.ok { s with
      aborted := true
      logs := s.logs ++ mkLog s LogType.SagaAbort (some S.length) none
                :: (idxMap (compLogFor s.ExecutionID s.Name) 0 S).reverse
      calls := s.calls ++ (idxMap compCallFor 0 S).reverse } := by
  have hlen : s.toCompensate.length = S.length := by rw [htc]; simp
  unfold abort
  rw [hlen]
  simp only [appendLog, hstore, checkErr]
  rw [compensateLoop_ok store hstore S
        { s with aborted := true
                 logs := s.logs ++ [mkLog s LogType.SagaAbort (some S.length) none] }
        rest [] []
        (by simpa using hsteps) (by simpa using htc) (by simpa using hrv) hcomp]
  simp [List.append_assoc]

theorem execLoop_add (store : Store) :
    ∀ (k₁ k₂ : Nat) (s s' : Saga) (i : Nat),
      execLoop store s i k₁ = Except.ok s' →
      execLoop store s i (k₁ + k₂) = execLoop store s' (i + k₁) k₂ := by
  intro k₁
  induction k₁ with
  | zero =>
    intro k₂ s s' i h
    simp only [execLoop] at h
    cases h
    simp
  | succ k ih =>
    intro k₂ s s' i h
    have harith : k + 1 + k₂ = (k + k₂) + 1 := by omega
    rw [harith]
    simp only [execLoop] at h ⊢
    cases hstep : execStep store s i with
    | error p => simp [hstep] at h
    | ok s1 =>
      simp only [hstep] at h ⊢
      have hrec := ih k₂ s1 s' (i + 1) h
      rw [hrec]
      have harith2 : i + 1 + k = i + (k + 1) := by omega
      rw [harith2]

theorem execLoop_seg (store : Store) (hstore : ∀ l, store l = none) :
    ∀ (suf pre : List StepSpec) (post : List Step) (s : Saga),
      s.steps = mkSteps (pre ++ suf) ++ post →
      s.aborted = false →
      (∀ t ∈ suf, ValidFn t.2.1 ∧ ValidFn t.2.2) →
      (∀ t ∈ suf, isReturnError (fwdRets t) = none) →
      execLoop store s pre.length suf.length =
        Except.ok { s with
          logs := s.logs ++ idxMap (execLogFor s.ExecutionID s.Name) pre.length suf
          calls := s.calls ++ idxMap fwdCallFor pre.length suf
          toCompensate := s.toCompensate ++ suf.map (fun t => t.2.2)
          returnedValuesFromFunc := s.returnedValuesFromFunc ++ suf.map fwdRets } := by
  intro suf
  induction suf with
  | nil =>
    intro pre post s hsteps hab hv hok
    simp [execLoop, idxMap]
  | cons t suf ih =>
    intro pre post s hsteps hab hv hok
    have hget : s.steps[pre.length]? = some (mkStep t) := by
      rw [hsteps]
      have h1 : mkSteps (pre ++ t :: suf) ++ post
          = mkSteps pre ++ (mkStep t :: (mkSteps suf ++ post)) := by
        simp [mkSteps]
      rw [h1]
      exact getElem?_append_at _ _ _ _ (by simp [mkSteps])
    obtain ⟨hvf, hvc⟩ := hv t (by simp)
    have hok0 : isReturnError (fwdRets t) = none := hok t (by simp)
    simp only [List.length_cons, execLoop]
    simp only [execStep_success store s pre.length t hstore hab hget hvf hvc hok0]
    rw [show pre.length + 1 = (pre ++ [t]).length by simp]
    rw [ih (pre ++ [t]) post _
          (by simp [hsteps, mkSteps])
          (by simp [hab])
          (fun u hu => hv u (by simp [hu]))
          (fun u hu => hok u (by simp [hu]))]
    simp [idxMap, List.append_assoc]

theorem execLoop_all (store : Store) (L : List StepSpec) (s : Saga) (i k : Nat)
    (hstore : ∀ l, store l = none)
    (hi : i = 0) (hk : k = L.length)
    (hsteps : s.steps = mkSteps L)
    (hab : s.aborted = false)
    (hv : ∀ t ∈ L, ValidFn t.2.1 ∧ ValidFn t.2.2)
    (hok : ∀ t ∈ L, isReturnError (fwdRets t) = none) :
    execLoop store s i k =
      Except.ok { s with
        logs := s.logs ++ idxMap (execLogFor s.ExecutionID s.Name) 0 L
        calls := s.calls ++ idxMap fwdCallFor 0 L
        toCompensate := s.toCompensate ++ L.map (fun t => t.2.2)
        returnedValuesFromFunc := s.returnedValuesFromFunc ++ L.map fwdRets } := by
  subst hi hk
  have h := execLoop_seg store hstore L [] [] s (by simpa using hsteps) hab hv hok
  simpa using h

theorem execLoop_fail_all (store : Store) (hstore : ∀ l, store l = none) :
    ∀ (pre done : List StepSpec) (tf : StepSpec) (post : List StepSpec)
      (e : String) (s : Saga),
    s.steps = mkSteps (done ++ pre ++ tf :: post) →
    s.aborted = false →
    s.toCompensate = done.map (fun t => t.2.2) →
    s.returnedValuesFromFunc = done.map fwdRets →
    (∀ t ∈ pre, ValidFn t.2.1 ∧ ValidFn t.2.2) →
    (∀ t ∈ pre, isReturnError (fwdRets t) = none) →
    ValidFn tf.2.1 → ValidFn tf.2.2 →
    isReturnError (fwdRets tf) = some e →
    (∀ t ∈ done ++ pre ++ [tf], isReturnError (compRets t) = none) →
    execLoop store s done.length (pre.length + 1 + post.length) =
      Except.ok { s with
        aborted := true
        err := some e
        toCompensate := s.toCompensate ++ (pre ++ [tf]).map (fun t => t.2.2)
        returnedValuesFromFunc := s.returnedValuesFromFunc ++ (pre ++ [tf]).map fwdRets
        logs := s.logs ++ idxMap (execLogFor s.ExecutionID s.Name) done.length (pre ++ [tf])
                  ++ mkLog s LogType.SagaAbort (some (done ++ pre ++ [tf]).length) none
                  :: (idxMap (compLogFor s.ExecutionID s.Name) 0 (done ++ pre ++ [tf])).reverse
        calls := s.calls ++ idxMap fwdCallFor done.length (pre ++ [tf])
                  ++ (idxMap compCallFor 0 (done ++ pre ++ [tf])).reverse } := by
  intro pre
  induction pre with
  | nil =>
    intro done tf post e s hsteps hab htc hrv hvPre hokPre hvf hvc hfail hcomp
    have hget : s.steps[done.length]? = some (mkStep tf) := by
      rw [hsteps]
      have h1 : mkSteps (done ++ [] ++ tf :: post)
          = mkSteps done ++ (mkStep tf :: mkSteps post) := by simp [mkSteps]
      rw [h1]
      exact getElem?_append_at _ _ _ _ (by simp [mkSteps])
    have hfail_step := execStep_fail store s done.length tf e hstore hab hget hvf hvc hfail
    have habort := abort_ok store hstore (done ++ [tf])
        { s with
          logs := s.logs ++ [execLogFor s.ExecutionID s.Name done.length tf]
          calls := s.calls ++ [fwdCallFor done.length tf]
          toCompensate := s.toCompensate ++ [tf.2.2]
          returnedValuesFromFunc := s.returnedValuesFromFunc ++ [fwdRets tf]
          err := some e }
        (mkSteps post)
        (by simp [hsteps, mkSteps])
        (by simp [htc])
        (by simp [hrv])
        (by intro u hu; exact hcomp u (by simpa using hu))
    simp only [List.length_nil, Nat.zero_add]
    rw [Nat.add_comm 1 post.length]
    simp only [execLoop]
    rw [hfail_step]
    simp only [habort]
    rw [execLoop_aborted store post.length]
    · simp [idxMap, List.append_assoc, mkLog]
    · simp
  | cons t pre ih =>
    intro done tf post e s hsteps hab htc hrv hvPre hokPre hvf hvc hfail hcomp
    obtain ⟨hvt1, hvt2⟩ := hvPre t (by simp)
    have hokt : isReturnError (fwdRets t) = none := hokPre t (by simp)
    have hget : s.steps[done.length]? = some (mkStep t) := by
      rw [hsteps]
      have h1 : mkSteps (done ++ (t :: pre) ++ tf :: post)
          = mkSteps done ++ (mkStep t :: mkSteps (pre ++ tf :: post)) := by
        simp [mkSteps]
      rw [h1]
      exact getElem?_append_at _ _ _ _ (by simp [mkSteps])
    have harith : (t :: pre).length + 1 + post.length
        = (pre.length + 1 + post.length) + 1 := by
      simp only [List.length_cons]; omega
    rw [harith]
    simp only [execLoop]
    simp only [execStep_success store s done.length t hstore hab hget hvt1 hvt2 hokt]
    rw [show done.length + 1 = (done ++ [t]).length from by simp]
    rw [ih (done ++ [t]) tf post e _
          (by simp [hsteps, mkSteps])
          (by simp [hab])
          (by simp [htc])
          (by simp [hrv])
          (fun u hu => hvPre u (by simp [hu]))
          (fun u hu => hokPre u (by simp [hu]))
          hvf hvc hfail
          (by intro u hu; apply hcomp u; simp at hu ⊢; tauto)]
    simp [idxMap, idxMap_append, List.append_assoc, mkLog]

theorem execLoop_fail_top (store : Store) (pre : List StepSpec) (tf : StepSpec)
    (post : List StepSpec) (e : String) (s : Saga) (i k : Nat)
    (hstore : ∀ l, store l = none)
    (hi : i = 0) (hk : k = pre.length + 1 + post.length)
    (hsteps : s.steps = mkSteps (pre ++ tf :: post))
    (hab : s.aborted = false)
    (htc : s.toCompensate = []) (hrv : s.returnedValuesFromFunc = [])
    (hvPre : ∀ t ∈ pre, ValidFn t.2.1 ∧ ValidFn t.2.2)
    (hokPre : ∀ t ∈ pre, isReturnError (fwdRets t) = none)
    (hvf : ValidFn tf.2.1) (hvc : ValidFn tf.2.2)
    (hfail : isReturnError (fwdRets tf) = some e)
    (hcomp : ∀ t ∈ pre ++ [tf], isReturnError (compRets t) = none) :
    execLoop store s i k =
      Except.ok { s with
        aborted := true
        err := some e
        toCompensate := s.toCompensate ++ (pre ++ [tf]).map (fun t => t.2.2)
        returnedValuesFromFunc := s.returnedValuesFromFunc ++ (pre ++ [tf]).map fwdRets
        logs := s.logs ++ idxMap (execLogFor s.ExecutionID s.Name) 0 (pre ++ [tf])
                  ++ mkLog s LogType.SagaAbort (some (pre.length + 1)) none
                  :: (idxMap (compLogFor s.ExecutionID s.Name) 0 (pre ++ [tf])).reverse
        calls := s.calls ++ idxMap fwdCallFor 0 (pre ++ [tf])
                  ++ (idxMap compCallFor 0 (pre ++ [tf])).reverse } := by
  subst hi hk
  have h := execLoop_fail_all store hstore pre [] tf post e s
      (by simpa using hsteps) hab (by simpa using htc) (by simpa using hrv)
      hvPre hokPre hvf hvc hfail
      (by intro u hu; exact hcomp u (by simpa using hu))
  simpa using h

/-- Claim C3: when every registered forward action is valid and returns a nil
error, Play returns a Result with no execution error, the calls performed are
exactly one forward invocation per step in registration order (and no
compensating invocation), and the log stream is exactly
StartSaga, StepExec per step in order, SagaComplete. -/
theorem c3_all_steps_succeed (store : Store) (nm eid : String) (L : List StepSpec)
    (hstore : ∀ l, store l = none)
    (hv : ∀ t ∈ L, ValidFn t.2.1 ∧ ValidFn t.2.2)
    (hok : ∀ t ∈ L, isReturnError (fwdRets t) = none) :
    Play store (mkSaga nm eid L) =
      Except.ok
        ({ NewSaga nm eid with
            steps := mkSteps L
            toCompensate := L.map (fun t => t.2.2)
            returnedValuesFromFunc := L.map fwdRets
            logs := { ExecutionID := eid, Name := nm, logType := LogType.StartSaga,
                      StepNumber := none, StepName := none }
                    :: idxMap (execLogFor eid nm) 0 L
                    ++ [{ ExecutionID := eid, Name := nm, logType := LogType.SagaComplete,
                          StepNumber := none, StepName := none }]
            calls := idxMap fwdCallFor 0 L },
         { Err := none }) := by
  rw [mkSaga_eq]
  unfold Play
  simp only [appendLog, hstore, checkErr]
  rw [execLoop_all store L _ _ _ hstore rfl _ _ _ hv hok]
  · simp only [appendLog, hstore, checkErr]
    simp [NewSaga, mkLog, idxMap]
  · simp [mkSteps]
  · rfl
  · rfl

theorem play_fail_run (store : Store) (nm eid : String) (pre : List StepSpec)
    (tf : StepSpec) (post : List StepSpec) (e : String)
    (hstore : ∀ l, store l = none)
    (hvPre : ∀ t ∈ pre, ValidFn t.2.1 ∧ ValidFn t.2.2)
    (hokPre : ∀ t ∈ pre, isReturnError (fwdRets t) = none)
    (hvf : ValidFn tf.2.1) (hvc : ValidFn tf.2.2)
    (hfail : isReturnError (fwdRets tf) = some e)
    (hcomp : ∀ t ∈ pre ++ [tf], isReturnError (compRets t) = none) :
    Play store (mkSaga nm eid (pre ++ tf :: post)) =
      Except.ok
        ({ NewSaga nm eid with
            steps := mkSteps (pre ++ tf :: post)
            aborted := true
            err := some e
            toCompensate := (pre ++ [tf]).map (fun t => t.2.2)
            returnedValuesFromFunc := (pre ++ [tf]).map fwdRets
            logs := { ExecutionID := eid, Name := nm, logType := LogType.StartSaga,
                      StepNumber := none, StepName := none }
                    :: idxMap (execLogFor eid nm) 0 (pre ++ [tf])
                    ++ { ExecutionID := eid, Name := nm, logType := LogType.SagaAbort,
                         StepNumber := some (pre.length + 1), StepName := none }
                    :: (idxMap (compLogFor eid nm) 0 (pre ++ [tf])).reverse
                    ++ [{ ExecutionID := eid, Name := nm, logType := LogType.SagaComplete,
                          StepNumber := none, StepName := none }]
            calls := idxMap fwdCallFor 0 (pre ++ [tf])
                    ++ (idxMap compCallFor 0 (pre ++ [tf])).reverse },
         { Err := some e }) := by
  rw [mkSaga_eq]
  unfold Play
  simp only [appendLog, hstore, checkErr]
  rw [execLoop_fail_top store pre tf post e _ _ _ hstore rfl _ _ _ _ _
        hvPre hokPre hvf hvc hfail hcomp]
  · simp only [appendLog, hstore, checkErr]
    simp [NewSaga, mkLog, idxMap, List.append_assoc]
  · simp [mkSteps]; omega
  · rfl
  · rfl
  · rfl
  · rfl

/-- Claim C2 (amended): for a saga whose forward steps before index i succeed,
whose forward step i fails with error e, and whose compensating actions for
steps 0..i all return a nil error, Play executes forward actions 0..i exactly
once each in order, never executes actions i+1.., compensates steps i down
to 0 exactly once each in that reverse order, and emits exactly
StartSaga, StepExec x (i+1), SagaAbort, StepCompensate x (i+1), SagaComplete.
The amendment (compensating actions succeed) is forced: the source panics on
a compensation error, see the counterexample. -/
theorem c2_step_failure_unwind (store : Store) (nm eid : String)
    (pre : List StepSpec) (tf : StepSpec) (post : List StepSpec) (e : String)
    (hstore : ∀ l, store l = none)
    (hvPre : ∀ t ∈ pre, ValidFn t.2.1 ∧ ValidFn t.2.2)
    (hokPre : ∀ t ∈ pre, isReturnError (fwdRets t) = none)
    (hvf : ValidFn tf.2.1) (hvc : ValidFn tf.2.2)
    (hfail : isReturnError (fwdRets tf) = some e)
    (hcomp : ∀ t ∈ pre ++ [tf], isReturnError (compRets t) = none) :
    Play store (mkSaga nm eid (pre ++ tf :: post)) =
      Except.ok
        ({ NewSaga nm eid with
            steps := mkSteps (pre ++ tf :: post)
            aborted := true
            err := some e
            toCompensate := (pre ++ [tf]).map (fun t => t.2.2)
            returnedValuesFromFunc := (pre ++ [tf]).map fwdRets
            logs := { ExecutionID := eid, Name := nm, logType := LogType.StartSaga,
                      StepNumber := none, StepName := none }
                    :: idxMap (execLogFor eid nm) 0 (pre ++ [tf])
                    ++ { ExecutionID := eid, Name := nm, logType := LogType.SagaAbort,
                         StepNumber := some (pre.length + 1), StepName := none }
                    :: (idxMap (compLogFor eid nm) 0 (pre ++ [tf])).reverse
                    ++ [{ ExecutionID := eid, Name := nm, logType := LogType.SagaComplete,
                          StepNumber := none, StepName := none }]
            calls := idxMap fwdCallFor 0 (pre ++ [tf])
                    ++ (idxMap compCallFor 0 (pre ++ [tf])).reverse },
         { Err := some e }) :=
  play_fail_run store nm eid pre tf post e hstore hvPre hokPre hvf hvc hfail hcomp

/-- Claim C2 counterexample: a one-step saga whose forward action fails and
whose compensating action also fails.  The claim as stated demands a
returned Result and the log stream StartSaga, StepExec, SagaAbort,
StepCompensate, SagaComplete; the code instead panics out of Play with the
compensation error, and SagaComplete is never emitted. -/
theorem c2_counterexample :
    runPanicMsg (Play okStore
        (mkSaga "cex2" "e2" [("only", failFn "boom", failFn "cboom")]))
      = some "cboom" ∧
    runLogTypes (Play okStore
        (mkSaga "cex2" "e2" [("only", failFn "boom", failFn "cboom")]))
      = [LogType.StartSaga, LogType.SagaStepExec, LogType.SagaAbort,
         LogType.SagaStepCompensate] :=
  ⟨rfl, rfl⟩

/-- Claim C2 witness: the amended theorem at a concrete two-step saga whose
second step fails. -/
theorem c2_witness :
    Play okStore (mkSaga "w2" "we2"
        [("first", okFn, okFn), ("second", failFn "some error", okFn)]) =
      Except.ok
        ({ NewSaga "w2" "we2" with
            steps := mkSteps [("first", okFn, okFn), ("second", failFn "some error", okFn)]
            aborted := true
            err := some "some error"
            toCompensate := [("first", okFn, okFn), ("second", failFn "some error", okFn)].map
              (fun t => t.2.2)
            returnedValuesFromFunc := [("first", okFn, okFn),
              ("second", failFn "some error", okFn)].map fwdRets
            logs := { ExecutionID := "we2", Name := "w2", logType := LogType.StartSaga,
                      StepNumber := none, StepName := none }
                    :: idxMap (execLogFor "we2" "w2") 0
                        [("first", okFn, okFn), ("second", failFn "some error", okFn)]
                    ++ { ExecutionID := "we2", Name := "w2", logType := LogType.SagaAbort,
                         StepNumber := some 2, StepName := none }
                    :: (idxMap (compLogFor "we2" "w2") 0
                        [("first", okFn, okFn), ("second", failFn "some error", okFn)]).reverse
                    ++ [{ ExecutionID := "we2", Name := "w2", logType := LogType.SagaComplete,
                          StepNumber := none, StepName := none }]
            calls := idxMap fwdCallFor 0
                        [("first", okFn, okFn), ("second", failFn "some error", okFn)]
                    ++ (idxMap compCallFor 0
                        [("first", okFn, okFn), ("second", failFn "some error", okFn)]).reverse },
         { Err := some "some error" }) :=
  c2_step_failure_unwind okStore "w2" "we2" [("first", okFn, okFn)]
    ("second", failFn "some error", okFn) [] "some error" (fun _ => rfl)
    (by intro t ht; simp only [List.mem_singleton] at ht; subst ht;
        exact ⟨validFn_okFn, validFn_okFn⟩)
    (by decide) (validFn_failFn "some error") validFn_okFn (by decide) (by decide)

/-- Claim C6: in a compensated run, for every executed step, the engine
passes the step's compensating action exactly the saga context followed by
the step's own forward output values (all forward results except the
trailing error), unchanged and in order. -/
theorem c6_round_trip (store : Store) (nm eid : String) (pre : List StepSpec)
    (tf : StepSpec) (post : List StepSpec) (e : String)
    (hstore : ∀ l, store l = none)
    (hvPre : ∀ t ∈ pre, ValidFn t.2.1 ∧ ValidFn t.2.2)
    (hokPre : ∀ t ∈ pre, isReturnError (fwdRets t) = none)
    (hvf : ValidFn tf.2.1) (hvc : ValidFn tf.2.2)
    (hfail : isReturnError (fwdRets tf) = some e)
    (hcomp : ∀ t ∈ pre ++ [tf], isReturnError (compRets t) = none) :
    ∀ (j : Nat) (t : StepSpec), (pre ++ [tf])[j]? = some t →
      fwdCallFor j t ∈ runCalls (Play store (mkSaga nm eid (pre ++ tf :: post))) ∧
      compCallFor j t ∈ runCalls (Play store (mkSaga nm eid (pre ++ tf :: post))) ∧
      (compCallFor j t).params = GoVal.ctxVal :: (fwdCallFor j t).rets.dropLast := by
  intro j t hj
  have hrun := play_fail_run store nm eid pre tf post e hstore hvPre hokPre
    hvf hvc hfail hcomp
  simp only [runCalls, hrun, playFinalState]
  refine ⟨?hf, ?hcm, ?hp⟩
  · apply List.mem_append.mpr
    left
    have h := idxMap_getElem? fwdCallFor (pre ++ [tf]) 0 j t hj
    rw [Nat.zero_add] at h
    exact List.getElem?_mem h
  · apply List.mem_append.mpr
    right
    rw [List.mem_reverse]
    have h := idxMap_getElem? compCallFor (pre ++ [tf]) 0 j t hj
    rw [Nat.zero_add] at h
    exact List.getElem?_mem h
  · simp [compCallFor, fwdCallFor, compParams, addParams_dropLast]

/-- Claim C6 witness: the round trip at a concrete saga whose first step
returns a data value 7 before its nil error and whose second step fails. -/
theorem c6_witness :
    fwdCallFor 0 ("first", outFn 7, okFn) ∈ runCalls (Play okStore
        (mkSaga "w6" "we6" [("first", outFn 7, okFn), ("second", failFn "boom", okFn)])) ∧
    compCallFor 0 ("first", outFn 7, okFn) ∈ runCalls (Play okStore
        (mkSaga "w6" "we6" [("first", outFn 7, okFn), ("second", failFn "boom", okFn)])) ∧
    (compCallFor 0 ("first", outFn 7, okFn)).params =
      GoVal.ctxVal :: (fwdCallFor 0 ("first", outFn 7, okFn)).rets.dropLast :=
  c6_round_trip okStore "w6" "we6" [("first", outFn 7, okFn)]
    ("second", failFn "boom", okFn) [] "boom" (fun _ => rfl)
    (by intro t ht; simp only [List.mem_singleton] at ht; subst ht;
        exact ⟨validFn_outFn 7, validFn_okFn⟩)
    (by decide) (validFn_failFn "boom") validFn_okFn (by decide) (by decide)
    0 ("first", outFn 7, okFn) rfl

/-- Claim C3 witness: a concrete two-step saga whose steps both succeed. -/
theorem c3_witness :
    Play okStore (mkSaga "w3" "we3" [("first", okFn, okFn), ("second", outFn 7, okFn)]) =
      Except.ok
        ({ NewSaga "w3" "we3" with
            steps := mkSteps [("first", okFn, okFn), ("second", outFn 7, okFn)]
            toCompensate := [("first", okFn, okFn), ("second", outFn 7, okFn)].map
              (fun t => t.2.2)
            returnedValuesFromFunc := [("first", okFn, okFn), ("second", outFn 7, okFn)].map
              fwdRets
            logs := { ExecutionID := "we3", Name := "w3", logType := LogType.StartSaga,
                      StepNumber := none, StepName := none }
                    :: idxMap (execLogFor "we3" "w3") 0
                        [("first", okFn, okFn), ("second", outFn 7, okFn)]
                    ++ [{ ExecutionID := "we3", Name := "w3", logType := LogType.SagaComplete,
                          StepNumber := none, StepName := none }]
            calls := idxMap fwdCallFor 0 [("first", okFn, okFn), ("second", outFn 7, okFn)] },
         { Err := none }) :=
  c3_all_steps_succeed okStore "w3" "we3" [("first", okFn, okFn), ("second", outFn 7, okFn)]
    (fun _ => rfl)
    (by
      intro t ht
      simp only [List.mem_cons, List.mem_singleton, List.not_mem_nil, or_false] at ht
      rcases ht with h | h
      · subst h; exact ⟨validFn_okFn, validFn_okFn⟩
      · subst h; exact ⟨validFn_outFn 7, validFn_okFn⟩)
    (by decide)

/-- Claim C1 (code behavior at the failing input): with two steps whose
compensating actions both fail, the unwind stops at the first compensation
error: Play panics with that error instead of returning a Result, only one
of the two bound compensating actions is ever invoked, and SagaComplete is
never emitted — no ordered compensation-error list is produced (the source's
Result type has no such field). -/
theorem c1_compensation_error_stops_unwind :
    runPanicMsg (Play okStore (mkSaga "err" "e1"
        [("first", okFn, failFn "compensate error 1"),
         ("second", failFn "some error", failFn "compensate error 2")]))
      = some "compensate error 2" ∧
    ((runCalls (Play okStore (mkSaga "err" "e1"
        [("first", okFn, failFn "compensate error 1"),
         ("second", failFn "some error", failFn "compensate error 2")]))).filter
        (fun r => r.kind == CallKind.compensate)).length = 1 ∧
    runLogTypes (Play okStore (mkSaga "err" "e1"
        [("first", okFn, failFn "compensate error 1"),
         ("second", failFn "some error", failFn "compensate error 2")]))
      = [LogType.StartSaga, LogType.SagaStepExec, LogType.SagaStepExec,
         LogType.SagaAbort, LogType.SagaStepCompensate] :=
  ⟨rfl, rfl, rfl⟩

/-- Claim C7 (code behavior): Play survives a forward-step error without a
panic, but a compensating action's error escapes Play as a panic — an
uncaught failure on an expected error condition. -/
theorem c7_play_panics_on_compensation_error :
    runPanicMsg (Play okStore (mkSaga "s7" "e7"
        [("only", failFn "step error", okFn)])) = none ∧
    runPanicMsg (Play okStore (mkSaga "s7" "e7b"
        [("only", failFn "step error", failFn "compensate boom")]))
      = some "compensate boom" :=
  ⟨rfl, rfl⟩

/-- Claim C4 (code behavior at the failing input): AddStep performs no
validation — registering the non-callable string value "hello" as the
forward action appends the step anyway (step count becomes 1, not 0) and
reports nothing; the invalid registration only surfaces later, as a panic
from getFuncValue during Play. -/
theorem c4_addstep_does_not_validate :
    (AddStep (NewSaga "hello" "e4")
        { Name := "first", Func := GoObj.nonFunc "string",
          CompensateFunc := GoObj.fn okFn }).steps.length = 1 ∧
    runPanicMsg (Play okStore (AddStep (NewSaga "hello" "e4")
        { Name := "first", Func := GoObj.nonFunc "string",
          CompensateFunc := GoObj.fn okFn }))
      = some "registered object must be a func" :=
  ⟨rfl, rfl⟩

/-- Claim C5: once the aborted flag is set, execStep is a no-op returning
the state unchanged: no log event is appended, no action is invoked, and
nothing is recorded. -/
theorem c5_aborted_skips_forward_steps (store : Store) (s : Saga) (i : Nat)
    (h : s.aborted = true) : execStep store s i = Except.ok s := by
  simp [execStep, h]

/-- Claim C5 witness: a concrete aborted state. -/
theorem c5_witness :
    execStep okStore { NewSaga "n5" "e5" with aborted := true } 0 =
      Except.ok { NewSaga "n5" "e5" with aborted := true } :=
  c5_aborted_skips_forward_steps okStore { NewSaga "n5" "e5" with aborted := true } 0 rfl

/-- Claim C9: a log store append failure is fatal: checkErr panics on the
returned error, so appendLog halts with it, and a Play whose StartSaga
append fails terminates at once, with no step executed and nothing
recorded. -/
theorem c9_append_failure_fatal :
    (∀ (store : Store) (s : Saga) (l : Log) (e : String),
        store l = some e → appendLog store s l = Except.error (e, s)) ∧
    (∀ (store : Store) (s : Saga) (e : String),
        store (mkLog s LogType.StartSaga none none) = some e →
        Play store s = Except.error (e, s)) := by
  constructor
  · intro store s l e h
    simp [appendLog, checkErr, h]
  · intro store s e h
    simp [Play, appendLog, checkErr, h]

/-- Claim C9 witness: the always-failing store halts Play at the StartSaga
append with the state unchanged. -/
theorem c9_witness :
    Play downStore (NewSaga "n9" "e9") =
      Except.error ("log store unavailable", NewSaga "n9" "e9") :=
  c9_append_failure_fatal.2 downStore (NewSaga "n9" "e9") "log store unavailable" rfl

/-- A callable with no return values at all. -/
def voidFn : GoFunc := ⟨1, true, fun _ => []⟩

/-- Claim C10: a forward action returning an empty result list is treated
as success: isReturnError yields nil on the empty list, so execStep records
the step and returns normally with the saga error and aborted flag
untouched — no abort is triggered. -/
theorem c10_zero_returns_treated_as_success (store : Store) (s : Saga) (i : Nat)
    (t : StepSpec)
    (hstore : ∀ l, store l = none)
    (hab : s.aborted = false)
    (hget : s.steps[i]? = some (mkStep t))
    (hf : ValidFn t.2.1) (hc : ValidFn t.2.2)
    (hzero : fwdRets t = []) :
    isReturnError (fwdRets t) = none ∧
    execStep store s i = Except.ok { s with
      logs := s.logs ++ [execLogFor s.ExecutionID s.Name i t]
      calls := s.calls ++ [fwdCallFor i t]
      toCompensate := s.toCompensate ++ [t.2.2]
      returnedValuesFromFunc := s.returnedValuesFromFunc ++ [fwdRets t] } := by
  have h1 : isReturnError (fwdRets t) = none := by rw [hzero]; rfl
  exact ⟨h1, execStep_success store s i t hstore hab hget hf hc h1⟩

/-- The saga used by the C10 witness. -/
def c10Saga : Saga := AddStep (NewSaga "n10" "e10") (mkStep ("void", voidFn, okFn))

/-- Claim C10 witness: a concrete zero-return forward action. -/
theorem c10_witness :
    isReturnError (fwdRets ("void", voidFn, okFn)) = none ∧
    execStep okStore c10Saga 0 =
      Except.ok { c10Saga with
        logs := c10Saga.logs
          ++ [execLogFor c10Saga.ExecutionID c10Saga.Name 0 ("void", voidFn, okFn)]
        calls := c10Saga.calls ++ [fwdCallFor 0 ("void", voidFn, okFn)]
        toCompensate := c10Saga.toCompensate ++ [okFn]
        returnedValuesFromFunc := c10Saga.returnedValuesFromFunc
          ++ [fwdRets ("void", voidFn, okFn)] } :=
  c10_zero_returns_treated_as_success okStore c10Saga 0 ("void", voidFn, okFn)
    (fun _ => rfl) rfl rfl ⟨Nat.le_refl 1, rfl⟩ validFn_okFn rfl

/-- The final saga state of an engine-level computation, whether it returned
or panicked. -/
def panicOrState : PanicOr Saga → Saga
  | Except.ok s => s
  | Except.error (_, s) => s

/-- Every forward-invocation record in the call list carries exactly the
context value as its parameter list. -/
def fwdCtxCalls (cs : List CallRecord) : Prop :=
  ∀ r ∈ cs, r.kind = CallKind.forward → r.params = [GoVal.ctxVal]

theorem fwdCtxCalls_nil : fwdCtxCalls [] := by
  intro r hr
  cases hr

theorem fwdCtxCalls_append_comp (cs : List CallRecord) (i : Nat)
    (ps rs : List GoVal) (h : fwdCtxCalls cs) :
    fwdCtxCalls (cs ++ [⟨CallKind.compensate, i, ps, rs⟩]) := by
  intro r hr hk
  rcases List.mem_append.mp hr with hL | hR
  · exact h r hL hk
  · simp only [List.mem_singleton] at hR
    subst hR
    cases hk

theorem fwdCtxCalls_append_fwd (cs : List CallRecord) (i : Nat)
    (rs : List GoVal) (h : fwdCtxCalls cs) :
    fwdCtxCalls (cs ++ [⟨CallKind.forward, i, [GoVal.ctxVal], rs⟩]) := by
  intro r hr hk
  rcases List.mem_append.mp hr with hL | hR
  · exact h r hL hk
  · simp only [List.mem_singleton] at hR
    subst hR
    rfl

theorem appendLog_calls (store : Store) (s : Saga) (l : Log) :
    (panicOrState (appendLog store s l)).calls = s.calls := by
  unfold appendLog checkErr
  cases store l <;> rfl

theorem compensateStep_fwdCtx (store : Store) (s : Saga) (i : Nat)
    (h : fwdCtxCalls s.calls) :
    fwdCtxCalls (panicOrState (compensateStep store s i)).calls := by
  simp only [compensateStep]
  split
  · exact h
  · rename_i st hst
    split
    · rename_i p hap
      have hc : p.2.calls = s.calls := by
        have hx := appendLog_calls store s
          (mkLog s LogType.SagaStepCompensate (some i) (some st.Name))
        rw [hap] at hx
        exact hx
      show fwdCtxCalls p.2.calls
      rw [hc]
      exact h
    · rename_i s1 hap
      have hc : s1.calls = s.calls := by
        have hx := appendLog_calls store s
          (mkLog s LogType.SagaStepCompensate (some i) (some st.Name))
        rw [hap] at hx
        exact hx
      have h1 : fwdCtxCalls s1.calls := by rw [hc]; exact h
      split
      · exact h1
      · rename_i rv hrv
        split
        · exact h1
        · rename_i cf htc
          split
          · exact fwdCtxCalls_append_comp s1.calls i _ _ h1
          · exact fwdCtxCalls_append_comp s1.calls i _ _ h1

theorem compensateLoop_fwdCtx (store : Store) :
    ∀ (k : Nat) (s : Saga), fwdCtxCalls s.calls →
      fwdCtxCalls (panicOrState (compensateLoop store s k)).calls := by
  intro k
  induction k with
  | zero => intro s h; exact h
  | succ k ih =>
    intro s h
    simp only [compensateLoop]
    cases hcs : compensateStep store s k with
    | error p =>
      have hx := compensateStep_fwdCtx store s k h
      rw [hcs] at hx
      exact hx
    | ok s1 =>
      have hx := compensateStep_fwdCtx store s k h
      rw [hcs] at hx
      exact ih s1 hx

theorem abort_fwdCtx (store : Store) (s : Saga) (h : fwdCtxCalls s.calls) :
    fwdCtxCalls (panicOrState (abort store s)).calls := by
  simp only [abort]
  split
  · rename_i p hap
    have hc : p.2.calls = s.calls := by
      have hx := appendLog_calls store s
        (mkLog s LogType.SagaAbort (some s.toCompensate.length) none)
      rw [hap] at hx
      exact hx
    show fwdCtxCalls p.2.calls
    rw [hc]
    exact h
  · rename_i s1 hap
    have hc : s1.calls = s.calls := by
      have hx := appendLog_calls store s
        (mkLog s LogType.SagaAbort (some s.toCompensate.length) none)
      rw [hap] at hx
      exact hx
    have h1 : fwdCtxCalls ({ s1 with aborted := true }).calls := by
      show fwdCtxCalls s1.calls
      rw [hc]
      exact h
    exact compensateLoop_fwdCtx store s.toCompensate.length { s1 with aborted := true } h1

theorem execStep_fwdCtx (store : Store) (s : Saga) (i : Nat)
    (h : fwdCtxCalls s.calls) :
    fwdCtxCalls (panicOrState (execStep store s i)).calls := by
  simp only [execStep]
  split
  · exact h
  · split
    · exact h
    · rename_i st hst
      split
      · rename_i p hap
        have hc : p.2.calls = s.calls := by
          have hx := appendLog_calls store s
            (mkLog s LogType.SagaStepExec (some i) (some st.Name))
          rw [hap] at hx
          exact hx
        show fwdCtxCalls p.2.calls
        rw [hc]
        exact h
      · rename_i s1 hap
        have hc : s1.calls = s.calls := by
          have hx := appendLog_calls store s
            (mkLog s LogType.SagaStepExec (some i) (some st.Name))
          rw [hap] at hx
          exact hx
        have h1 : fwdCtxCalls s1.calls := by rw [hc]; exact h
        split
        · exact h1
        · rename_i fv hgf
          have h2 : fwdCtxCalls
              (s1.calls ++ [⟨CallKind.forward, i, [GoVal.ctxVal], fv.call [GoVal.ctxVal]⟩]) :=
            fwdCtxCalls_append_fwd s1.calls i _ h1
          split
          · exact h2
          · rename_i cv hgc
            split
            · exact abort_fwdCtx store _ h2
            · exact h2

theorem execLoop_fwdCtx (store : Store) :
    ∀ (k : Nat) (s : Saga) (i : Nat), fwdCtxCalls s.calls →
      fwdCtxCalls (panicOrState (execLoop store s i k)).calls := by
  intro k
  induction k with
  | zero => intro s i h; exact h
  | succ k ih =>
    intro s i h
    simp only [execLoop]
    cases hstep : execStep store s i with
    | error p =>
      have hx := execStep_fwdCtx store s i h
      rw [hstep] at hx
      exact hx
    | ok s1 =>
      have hx := execStep_fwdCtx store s i h
      rw [hstep] at hx
      exact ih s1 (i + 1) hx

/-- Claim C8: every forward invocation performed anywhere in a run receives
exactly the saga context value as its only parameter — no return values of
earlier forward steps are ever threaded into a later forward call. -/
theorem c8_forward_actions_receive_only_ctx (store : Store) (s : Saga)
    (h : s.calls = []) :
    ∀ r ∈ (playFinalState (Play store s)).calls,
      r.kind = CallKind.forward → r.params = [GoVal.ctxVal] := by
  have h0 : fwdCtxCalls s.calls := by rw [h]; exact fwdCtxCalls_nil
  show fwdCtxCalls (playFinalState (Play store s)).calls
  simp only [Play]
  split
  · rename_i p h1
    have hc : p.2.calls = s.calls := by
      have hx := appendLog_calls store s (mkLog s LogType.StartSaga none none)
      rw [h1] at hx
      exact hx
    show fwdCtxCalls p.2.calls
    rw [hc]
    exact h0
  · rename_i s1 h1
    have hc : s1.calls = s.calls := by
      have hx := appendLog_calls store s (mkLog s LogType.StartSaga none none)
      rw [h1] at hx
      exact hx
    have hfc1 : fwdCtxCalls s1.calls := by rw [hc]; exact h0
    split
    · rename_i p h2
      have hx := execLoop_fwdCtx store s1.steps.length s1 0 hfc1
      rw [h2] at hx
      exact hx
    · rename_i s2 h2
      have hx := execLoop_fwdCtx store s1.steps.length s1 0 hfc1
      rw [h2] at hx
      split
      · rename_i p h3
        have hc3 : p.2.calls = s2.calls := by
          have hy := appendLog_calls store s2 (mkLog s2 LogType.SagaComplete none none)
          rw [h3] at hy
          exact hy
        show fwdCtxCalls p.2.calls
        rw [hc3]
        exact hx
      · rename_i s3 h3
        have hc3 : s3.calls = s2.calls := by
          have hy := appendLog_calls store s2 (mkLog s2 LogType.SagaComplete none none)
          rw [h3] at hy
          exact hy
        show fwdCtxCalls s3.calls
        rw [hc3]
        exact hx

/-- Claim C8 witness: the theorem applied to a concrete one-step run, at the
forward call record that run performs. -/
theorem c8_witness :
    (⟨CallKind.forward, 0, [GoVal.ctxVal], [GoVal.errVal none]⟩ : CallRecord).params
      = [GoVal.ctxVal] :=
  c8_forward_actions_receive_only_ctx okStore (mkSaga "w8" "we8" [("first", okFn, okFn)]) rfl
    ⟨CallKind.forward, 0, [GoVal.ctxVal], [GoVal.errVal none]⟩ (by decide) rfl

end saga
